import Mathlib

/-!
Verification of the upload placeholder plugin
(`src/packages/remirror__core/src/builtins/upload-extension/file-placeholder-plugin.ts`).

The plugin keeps, per editor state, a decoration set (widget decorations
anchored at document positions, each carrying an `id` in its spec) together
with a `Map` from identifier to an arbitrary payload.  On every transaction
it first remaps the decoration positions through the transaction's position
mapping and then applies the optional add/remove action attached as
transaction metadata.

The host engine's primitives (decoration sets, position mappings) are
embedded as follows, reflecting the behaviour the plugin relies on:

* a position mapping is a function `Nat → Option Nat`; `none` means the
  position was deleted by the transaction, and the host's
  `DecorationSet.map` drops widget decorations whose position was deleted;
* a decoration set is a list of widget decorations ordered by position;
  `add` inserts keeping the order, `find` with a spec predicate returns the
  matching decorations in order, `remove` removes the given decorations;
* the payload `Map` is a list of key/value pairs with JavaScript `Map`
  semantics: `set` overwrites in place or appends, `delete` removes the
  entry for the key, `get` looks the key up, `size` is the number of
  entries.
-/

namespace FilePlaceholder

/-- A widget decoration as used by the plugin: a document position
(`from` in the source, a widget has `from = to`) and the `id` stored in
its spec (`Decoration.widget(action.pos, widget, { id: action.id })`). -/
structure Decoration where
  from_ : Nat
  id : String
deriving DecidableEq, Repr

/-- A transaction's position mapping (`tr.mapping`): maps a position valid
before the transaction to the corresponding position after it, or to
`none` when the position was deleted. -/
structure Mapping where
  mapPos : Nat → Option Nat

/-- The action attached to a transaction as metadata
(`PlaceholderPluginAction` from `file-placeholder-actions.ts`): either
`ADD_PLACEHOLDER` with an id, a position and a payload, or
`REMOVE_PLACEHOLDER` with an id. -/
inductive PlaceholderPluginAction (α : Type) where
  | add (id : String) (pos : Nat) (payload : α)
  | remove (id : String)

/-- The part of a transaction the plugin consumes: its position mapping
(`tr.mapping`) and the optional placeholder action read by
`tr.getMeta(this)`. -/
structure Transaction (α : Type) where
  mapping : Mapping
  action : Option (PlaceholderPluginAction α)

/-- Host `DecorationSet.map tr.mapping tr.doc`: every decoration position
is pushed through the mapping; decorations whose position was deleted are
dropped from the set. -/
def decorationSetMap (m : Mapping) (set : List Decoration) : List Decoration :=
  set.filterMap fun d => (m.mapPos d.from_).map fun p => { d with from_ := p }

/-- Host `DecorationSet.add`: insert a decoration keeping the set ordered
by position (a decoration at a position equal to existing ones goes after
them). -/
def decorationSetAdd (d : Decoration) : List Decoration → List Decoration
  | [] => [d]
  | e :: es => if d.from_ < e.from_ then d :: e :: es else e :: decorationSetAdd d es

/-- Host `DecorationSet.find(undefined, undefined, pred)`: all decorations
whose spec satisfies the predicate, in document order. -/
def decorationSetFind (p : Decoration → Bool) (set : List Decoration) : List Decoration :=
  set.filter p

/-- Host `DecorationSet.remove`: drop the listed decorations from the set. -/
def decorationSetRemove (ds : List Decoration) (set : List Decoration) : List Decoration :=
  set.filter fun d => ¬ d ∈ ds

/-- JavaScript `Map.prototype.get`. -/
def mapGet (k : String) (m : List (String × α)) : Option α :=
  (m.find? fun kv => kv.1 = k).map fun kv => kv.2

/-- JavaScript `Map.prototype.set`: overwrite the value when the key is
present, append a new entry otherwise. -/
def mapSet (k : String) (v : α) (m : List (String × α)) : List (String × α) :=
  if m.any fun kv => kv.1 = k then
    m.map fun kv => if kv.1 = k then (k, v) else kv
  else
    m ++ [(k, v)]

/-- JavaScript `Map.prototype.delete`: remove the entry for the key. -/
def mapDelete (k : String) (m : List (String × α)) : List (String × α) :=
  m.filter fun kv => ¬ kv.1 = k

/-- The plugin's state record `UploadPlaceholderPluginData`:
`{ set: DecorationSet; payloads: Map<string, any> }`. -/
structure UploadPlaceholderPluginData (α : Type) where
  set : List Decoration
  payloads : List (String × α)
deriving DecidableEq

/-- The plugin's `init`: the empty decoration set and an empty payload
map. -/
def init (α : Type) : UploadPlaceholderPluginData α :=
  { set := [], payloads := [] }

/-- The plugin's `apply(tr, { set, payloads })`: remap the decoration set
through `tr.mapping`, then read the action from the transaction metadata
and, when present, perform the add (`set.add` plus `payloads.set`) or the
remove (`set.remove(set.find(..., spec.id === action.id))` plus
`payloads.delete`). -/
def apply (tr : Transaction α) (data : UploadPlaceholderPluginData α) :
    UploadPlaceholderPluginData α :=
  let set := decorationSetMap tr.mapping data.set
  match tr.action with
  | some (.add id pos payload) =>
      { set := decorationSetAdd { from_ := pos, id := id } set,
        payloads := mapSet id payload data.payloads }
  | some (.remove id) =>
      { set := decorationSetRemove (decorationSetFind (fun d => d.id = id) set) set,
        payloads := mapDelete id data.payloads }
  | none => { set := set, payloads := data.payloads }

/-- Apply a sequence of transactions starting from a given plugin state. -/
def applyList (trs : List (Transaction α)) (data : UploadPlaceholderPluginData α) :
    UploadPlaceholderPluginData α :=
  trs.foldl (fun s tr => apply tr s) data

/-- The slice of an `EditorState` the query functions consume:
`key.getState(state)` yields the plugin state, or nothing when the plugin
is not part of the state. -/
structure EditorState (α : Type) where
  pluginState : Option (UploadPlaceholderPluginData α)

/-- `findUploadPlaceholderPos(state, id)`: `undefined` when the plugin
state is missing, otherwise the position of the first decoration whose
spec id matches (`found[0]?.from`). -/
def findUploadPlaceholderPos (state : EditorState α) (id : String) : Option Nat :=
  match state.pluginState with
  | none => none
  | some data =>
      (decorationSetFind (fun d => d.id = id) data.set).head?.map fun d => d.from_

/-- `findUploadPlaceholderPayload(state, id)`: `undefined` when the plugin
state is missing, otherwise `payloads.get(id)`. -/
def findUploadPlaceholderPayload (state : EditorState α) (id : String) : Option α :=
  match state.pluginState with
  | none => none
  | some data => mapGet id data.payloads

/-- `hasUploadingFile(state)`: `(key.getState(state)?.payloads?.size ?? 0) > 0`. -/
def hasUploadingFile (state : EditorState α) : Bool :=
  (match state.pluginState with
   | none => 0
   | some data => data.payloads.length) > 0

/-- The position mapping of a transaction that leaves the document
unchanged (or whose changes move no position): every position maps to
itself. -/
def identityMapping : Mapping :=
  { mapPos := fun p => some p }

/-- The position mapping of a transaction that inserts three characters at
document position 2: positions before the insertion point are unchanged,
positions at or after it shift right by three. -/
def insertThreeAtTwo : Mapping :=
  { mapPos := fun p => if p < 2 then some p else some (p + 3) }

/-- The position mapping of a transaction that deletes the content at
document position 5, so that position 5 itself is deleted by the
mapping. -/
def deleteAtFive : Mapping :=
  { mapPos := fun p => if p = 5 then none else some p }

/-- A position mapping that deletes no position: every position before the
transaction has a corresponding position after it.  Insertions and
replacements that leave the placeholder positions alive have total
mappings; deletions of the content a placeholder is anchored to do not. -/
def TotalMapping (m : Mapping) : Prop :=
  ∀ p, (m.mapPos p).isSome

/-- The effect of one transaction's action on the list of currently
registered identifiers: an add registers the identifier, a remove
unregisters it, no action leaves the list unchanged. -/
def stepIds : Option (PlaceholderPluginAction α) → List String → List String
  | some (.add id _ _), acc => acc ++ [id]
  | some (.remove id), acc => acc.filter fun i => ¬ i = id
  | none, acc => acc

/-- The identifiers registered after a sequence of transactions: added and
not since removed. -/
def registeredIds (trs : List (Transaction α)) (acc : List String) : List String :=
  trs.foldl (fun acc tr => stepIds tr.action acc) acc

/-- Holds when every add action in the sequence uses an identifier that is
not registered at the time of the add (given the identifiers in `acc` are
registered at the start). -/
def freshAddsOk : List (Transaction α) → List String → Bool
  | [], _ => true
  | tr :: trs, acc =>
      (match tr.action with
       | some (.add id _ _) => !(acc.any fun i => i = id)
       | _ => true) && freshAddsOk trs (stepIds tr.action acc)

/-- The state reached from the initial plugin state by adding identifier
`A` at position 5 and then applying a transaction whose mapping deletes
position 5 (the host drops the widget decoration whose position was
deleted, while the plugin never touches the payload map on an actionless
transaction). -/
def desyncState : UploadPlaceholderPluginData Nat :=
  applyList
    [{ mapping := identityMapping, action := some (.add "A" 5 0) },
     { mapping := deleteAtFive, action := none }]
    (init Nat)

/-- The state reached from the initial plugin state by adding identifier
`A` twice, at positions 1 and 2, with no remove in between. -/
def dupAddState : UploadPlaceholderPluginData Nat :=
  applyList
    [{ mapping := identityMapping, action := some (.add "A" 1 0) },
     { mapping := identityMapping, action := some (.add "A" 2 1) }]
    (init Nat)

/-- The plugin state as the JavaScript runtime holds it: the decoration
set is an immutable value rebound on every transaction, while `payloads`
is a reference to a mutable `Map` object.  The reference is an index into
a heap of payload maps. -/
structure UploadPlaceholderPluginDataRef where
  set : List Decoration
  payloadsRef : Nat

/-- A heap of JavaScript `Map` objects, indexed by reference. -/
def Heap (α : Type) : Type :=
  List (List (String × α))

/-- Dereference a payload map in the heap. -/
def heapRead (h : Heap α) (r : Nat) : List (String × α) :=
  List.getD h r []

/-- Overwrite the payload map a reference points to. -/
def heapWrite (h : Heap α) (r : Nat) (m : List (String × α)) : Heap α :=
  List.set h r m

/-- The plugin's `apply` with JavaScript reference semantics for the
payload map: `payloads.set(...)` and `payloads.delete(...)` mutate the
`Map` object behind the state's reference in place, and the returned
state record carries the same reference, while the decoration set is a
fresh value produced by `set.map`/`set.add`/`set.remove`. -/
def applyRef (tr : Transaction α) (s : UploadPlaceholderPluginDataRef) (h : Heap α) :
    UploadPlaceholderPluginDataRef × Heap α :=
  let set := decorationSetMap tr.mapping s.set
  match tr.action with
  | some (.add id pos payload) =>
      ({ set := decorationSetAdd { from_ := pos, id := id } set,
         payloadsRef := s.payloadsRef },
       heapWrite h s.payloadsRef (mapSet id payload (heapRead h s.payloadsRef)))
  | some (.remove id) =>
      ({ set := decorationSetRemove (decorationSetFind (fun d => d.id = id) set) set,
         payloadsRef := s.payloadsRef },
       heapWrite h s.payloadsRef (mapDelete id (heapRead h s.payloadsRef)))
  | none => ({ set := set, payloadsRef := s.payloadsRef }, h)

/-- The runtime state of a fresh plugin: an empty decoration set and a
reference to an empty `Map` allocated in the heap. -/
def refStart : UploadPlaceholderPluginDataRef :=
  { set := [], payloadsRef := 0 }

/-- The heap of a fresh plugin: one allocated, empty payload map. -/
def heapStart : Heap Nat :=
  [[]]

/-- First step of the aliasing scenario: a transaction adds identifier
`A` at position 5 with payload 0. -/
def refStep1 : UploadPlaceholderPluginDataRef × Heap Nat :=
  applyRef { mapping := identityMapping, action := some (.add "A" 5 0) } refStart heapStart

/-- Second step of the aliasing scenario: a later transaction adds
identifier `B` at position 7 with payload 1, starting from the state and
heap produced by the first step. -/
def refStep2 : UploadPlaceholderPluginDataRef × Heap Nat :=
  applyRef { mapping := identityMapping, action := some (.add "B" 7 1) } refStep1.1 refStep1.2

/-- Phase one of the spec's two-phase description of `apply`: remap every
existing decoration position through the transaction's position mapping,
touching nothing else. -/
def remapPhase (tr : Transaction α) (data : UploadPlaceholderPluginData α) :
    UploadPlaceholderPluginData α :=
  { data with set := decorationSetMap tr.mapping data.set }

/-- Phase two of the spec's two-phase description of `apply`: inspect the
transaction's attached intent and apply at most one add or remove to the
given state, with no further remapping; when no action is attached the
state is returned unchanged. -/
def actionPhase (tr : Transaction α) (data : UploadPlaceholderPluginData α) :
    UploadPlaceholderPluginData α :=
  match tr.action with
  | some (.add id pos payload) =>
      { set := decorationSetAdd { from_ := pos, id := id } data.set,
        payloads := mapSet id payload data.payloads }
  | some (.remove id) =>
      { set := decorationSetRemove (decorationSetFind (fun d => d.id = id) data.set) data.set,
        payloads := mapDelete id data.payloads }
  | none => data

/-- Unfolding lemma for remapping a decoration set one decoration at a
time. -/
lemma decorationSetMap_cons (m : Mapping) (d : Decoration) (ds : List Decoration) :
    decorationSetMap m (d :: ds) =
      match m.mapPos d.from_ with
      | some q => { d with from_ := q } :: decorationSetMap m ds
      | none => decorationSetMap m ds := by
  unfold decorationSetMap
  rw [List.filterMap_cons]
  cases m.mapPos d.from_ <;> rfl

/-- Remapping through a total mapping preserves how many decorations
carry a given identifier. -/
lemma countP_decorationSetMap (m : Mapping) (hm : TotalMapping m)
    (set : List Decoration) (i : String) :
    (decorationSetMap m set).countP (fun d => d.id = i) =
      set.countP fun d => d.id = i := by
  induction set with
  | nil => rfl
  | cons d ds ih =>
    have hq := hm d.from_
    rw [decorationSetMap_cons]
    cases h : m.mapPos d.from_ with
    | none => rw [h] at hq; simp at hq
    | some q =>
      rw [List.countP_cons, List.countP_cons, ih]

/-- Remapping through a total mapping preserves which identifiers occur
in the decoration set. -/
lemma any_decorationSetMap (m : Mapping) (hm : TotalMapping m)
    (set : List Decoration) (i : String) :
    (decorationSetMap m set).any (fun d => d.id = i) =
      set.any fun d => d.id = i := by
  induction set with
  | nil => rfl
  | cons d ds ih =>
    have hq := hm d.from_
    rw [decorationSetMap_cons]
    cases h : m.mapPos d.from_ with
    | none => rw [h] at hq; simp at hq
    | some q =>
      rw [List.any_cons, List.any_cons, ih]

/-- Inserting a decoration into the ordered set adds one decoration with
its identifier and leaves the other counts unchanged. -/
lemma countP_decorationSetAdd (d : Decoration) (set : List Decoration)
    (p : Decoration → Bool) :
    (decorationSetAdd d set).countP p = set.countP p + if p d then 1 else 0 := by
  induction set with
  | nil => rw [decorationSetAdd, List.countP_cons, List.countP_nil]
  | cons e es ih =>
    rw [decorationSetAdd]
    by_cases hlt : d.from_ < e.from_
    · rw [if_pos hlt]
      simp only [List.countP_cons]
    · rw [if_neg hlt]
      simp only [List.countP_cons, ih]
      omega

/-- Inserting a decoration into the ordered set makes its identifier
occur and keeps every other identifier occurrence unchanged. -/
lemma any_decorationSetAdd (d : Decoration) (set : List Decoration)
    (p : Decoration → Bool) :
    (decorationSetAdd d set).any p = (p d || set.any p) := by
  induction set with
  | nil => rw [decorationSetAdd, List.any_cons, List.any_nil]
  | cons e es ih =>
    rw [decorationSetAdd]
    by_cases hlt : d.from_ < e.from_
    · rw [if_pos hlt, List.any_cons, List.any_cons]
    · rw [if_neg hlt, List.any_cons, List.any_cons, ih]
      cases p d <;> cases p e <;> rfl

/-- Removing the decorations found by a spec predicate is filtering by
the negated predicate. -/
lemma decorationSetRemove_decorationSetFind (p : Decoration → Bool)
    (set : List Decoration) :
    decorationSetRemove (decorationSetFind p set) set = set.filter fun d => ¬ p d := by
  unfold decorationSetRemove decorationSetFind
  refine List.filter_congr ?_
  intro x hx
  rw [decide_eq_decide]
  simp [List.mem_filter, hx]

/-- After removing every decoration whose identifier is `i`, the count of
decorations with identifier `i` is zero and every other identifier's
count is unchanged. -/
lemma countP_decorationSetRemove_find (i k : String) (set : List Decoration) :
    (decorationSetRemove (decorationSetFind (fun d => d.id = i) set) set).countP
        (fun d => d.id = k) =
      if k = i then 0 else set.countP fun d => d.id = k := by
  rw [decorationSetRemove_decorationSetFind, List.countP_filter]
  by_cases hk : k = i
  · subst hk
    rw [if_pos rfl]
    refine List.countP_eq_zero.mpr ?_
    intro d _
    simp
  · rw [if_neg hk]
    refine List.countP_congr ?_
    intro d _
    constructor
    · intro h
      exact (Bool.and_eq_true _ _).mp h |>.1
    · intro h
      refine (Bool.and_eq_true _ _).mpr ⟨h, ?_⟩
      have hdk : d.id = k := of_decide_eq_true h
      simp [hdk, hk]

/-- After removing every decoration whose identifier is `i`, identifier
`i` occurs in the set no more, and every other identifier occurs exactly
as before. -/
lemma any_decorationSetRemove_find (i k : String) (set : List Decoration) :
    (decorationSetRemove (decorationSetFind (fun d => d.id = i) set) set).any
        (fun d => d.id = k) =
      if k = i then false else set.any fun d => d.id = k := by
  rw [decorationSetRemove_decorationSetFind, List.any_filter]
  by_cases hk : k = i
  · subst hk
    rw [if_pos rfl]
    refine List.any_eq_false.mpr ?_
    intro d _
    simp
  · rw [if_neg hk, Bool.eq_iff_iff]
    simp only [List.any_eq_true, Bool.and_eq_true]
    constructor
    · rintro ⟨d, hd, _, h2⟩
      exact ⟨d, hd, h2⟩
    · rintro ⟨d, hd, h2⟩
      have hdk : d.id = k := of_decide_eq_true h2
      exact ⟨d, hd, by simp [hdk, hk], h2⟩

/-- Characterization of a lookup after a JavaScript `Map.set`: looking up
the written key finds the new value, looking up any other key is
unchanged. -/
lemma find?_map_overwrite (k k' : String) (v : α) (m : List (String × α)) :
    ((m.map fun kv => if kv.1 = k then (k, v) else kv).find? fun kv => kv.1 = k') =
      if k' = k then (if m.any (fun kv => kv.1 = k) then some (k, v) else none)
      else m.find? fun kv => kv.1 = k' := by
  induction m with
  | nil => by_cases hk : k' = k <;> simp [hk]
  | cons kv rest ih =>
    by_cases h1 : kv.1 = k
    · by_cases hk : k' = k
      · subst hk
        simp [h1, List.any_cons]
      · simp [h1, hk, ih, Ne.symm hk]
    · by_cases h2 : kv.1 = k'
      · have hk : ¬ k' = k := fun h => h1 (h ▸ h2)
        simp [h1, h2, hk]
      · rw [List.map_cons, if_neg h1, List.find?_cons_of_neg _ (by simp [h2]), ih,
          List.any_cons, List.find?_cons_of_neg _ (by simp [h2]),
          show (decide (kv.1 = k)) = false from by simp [h1], Bool.false_or]

/-- JavaScript `Map.get` after `Map.set`: the written key maps to the new
value, every other key is unchanged. -/
lemma mapGet_mapSet (k k' : String) (v : α) (m : List (String × α)) :
    mapGet k' (mapSet k v m) = if k' = k then some v else mapGet k' m := by
  unfold mapGet mapSet
  by_cases hany : (m.any fun kv => kv.1 = k) = true
  · rw [if_pos hany, find?_map_overwrite, if_pos hany]
    by_cases hk : k' = k
    · rw [if_pos hk, if_pos hk]
      rfl
    · rw [if_neg hk, if_neg hk]
  · have hfalse : (m.any fun kv => kv.1 = k) = false := by
      cases h : m.any fun kv => kv.1 = k
      · rfl
      · exact absurd h hany
    rw [if_neg hany, List.find?_append]
    have hnone : (m.find? fun kv => kv.1 = k) = none :=
      List.find?_eq_none.mpr (List.any_eq_false.mp hfalse)
    by_cases hk : k' = k
    · subst hk
      rw [hnone, if_pos rfl]
      simp
    · have hsingle : ([(k, v)].find? fun kv => kv.1 = k') = none := by
        simp [Ne.symm hk]
      rw [hsingle, if_neg hk]
      simp

/-- JavaScript `Map.get` after `Map.delete`: the deleted key is gone,
every other key is unchanged. -/
lemma mapGet_mapDelete (k k' : String) (m : List (String × α)) :
    mapGet k' (mapDelete k m) = if k' = k then none else mapGet k' m := by
  induction m with
  | nil => simp [mapGet, mapDelete]
  | cons kv rest ih =>
    by_cases h1 : kv.1 = k
    · have hdrop : mapDelete k (kv :: rest) = mapDelete k rest := by
        simp [mapDelete, List.filter_cons, h1]
      by_cases hk : k' = k
      · rw [hdrop, ih, if_pos hk, if_pos hk]
      · rw [hdrop, ih, if_neg hk, if_neg hk]
        have h2 : ¬ kv.1 = k' := fun h => hk (by rw [← h]; exact h1)
        unfold mapGet
        rw [List.find?_cons_of_neg _ (by simp [h2])]
    · have hkeep : mapDelete k (kv :: rest) = kv :: mapDelete k rest := by
        simp [mapDelete, List.filter_cons, h1]
      by_cases h2 : kv.1 = k'
      · have hk : ¬ k' = k := fun h => h1 (by rw [h2, h])
        rw [hkeep, if_neg hk]
        unfold mapGet
        rw [List.find?_cons_of_pos _ (by simp [h2]), List.find?_cons_of_pos _ (by simp [h2])]
      · have hskip : mapGet k' (kv :: mapDelete k rest) = mapGet k' (mapDelete k rest) := by
          unfold mapGet
          rw [List.find?_cons_of_neg _ (by simp [h2])]
        rw [hkeep, hskip, ih]
        by_cases hk : k' = k
        · rw [if_pos hk, if_pos hk]
        · rw [if_neg hk, if_neg hk]
          unfold mapGet
          rw [List.find?_cons_of_neg _ (by simp [h2])]

/-- Number of entries for each key after a `Map.set` on a key that is not
present: one new entry for the written key, other keys unchanged. -/
lemma countP_mapSet_of_absent (k k' : String) (v : α) (m : List (String × α))
    (habs : (m.any fun kv => kv.1 = k) = false) :
    (mapSet k v m).countP (fun kv => kv.1 = k') =
      m.countP (fun kv => kv.1 = k') + if k' = k then 1 else 0 := by
  unfold mapSet
  rw [habs]
  simp only [Bool.false_eq_true, if_false, List.countP_append, List.countP_cons,
    List.countP_nil]
  by_cases hk : k' = k
  · simp [hk]
  · simp [hk, Ne.symm hk]

/-- Number of entries for each key after a `Map.delete`: zero for the
deleted key, other keys unchanged. -/
lemma countP_mapDelete (k k' : String) (m : List (String × α)) :
    (mapDelete k m).countP (fun kv => kv.1 = k') =
      if k' = k then 0 else m.countP fun kv => kv.1 = k' := by
  unfold mapDelete
  rw [List.countP_filter]
  by_cases hk : k' = k
  · subst hk
    rw [if_pos rfl]
    refine List.countP_eq_zero.mpr ?_
    intro kv _
    simp
  · rw [if_neg hk]
    refine List.countP_congr ?_
    intro kv _
    constructor
    · intro h
      exact (Bool.and_eq_true _ _).mp h |>.1
    · intro h
      refine (Bool.and_eq_true _ _).mpr ⟨h, ?_⟩
      have h2 : kv.1 = k' := of_decide_eq_true h
      simp [h2, hk]

/-- The decoration set after a transaction carrying a remove action:
everything found with the removed identifier is dropped from the remapped
set. -/
lemma apply_remove_set (tr : Transaction α) (s : UploadPlaceholderPluginData α)
    (i : String) (h : tr.action = some (.remove i)) :
    (apply tr s).set =
      (decorationSetMap tr.mapping s.set).filter fun d => ¬ d.id = i := by
  simp only [apply, h, decorationSetRemove_decorationSetFind]
  refine List.filter_congr ?_
  intro d _
  simp

/-- The payload map after a transaction carrying a remove action. -/
lemma apply_remove_payloads (tr : Transaction α) (s : UploadPlaceholderPluginData α)
    (i : String) (h : tr.action = some (.remove i)) :
    (apply tr s).payloads = mapDelete i s.payloads := by
  simp only [apply, h]

/-- The decoration set after a transaction carrying an add action. -/
lemma apply_add_set (tr : Transaction α) (s : UploadPlaceholderPluginData α)
    (i : String) (pos : Nat) (payload : α) (h : tr.action = some (.add i pos payload)) :
    (apply tr s).set =
      decorationSetAdd { from_ := pos, id := i } (decorationSetMap tr.mapping s.set) := by
  simp only [apply, h]

/-- The payload map after a transaction carrying an add action. -/
lemma apply_add_payloads (tr : Transaction α) (s : UploadPlaceholderPluginData α)
    (i : String) (pos : Nat) (payload : α) (h : tr.action = some (.add i pos payload)) :
    (apply tr s).payloads = mapSet i payload s.payloads := by
  simp only [apply, h]

/-- The state after a transaction carrying no action: the decoration set
is remapped and the payload map is untouched. -/
lemma apply_none (tr : Transaction α) (s : UploadPlaceholderPluginData α)
    (h : tr.action = none) :
    apply tr s =
      { set := decorationSetMap tr.mapping s.set, payloads := s.payloads } := by
  simp only [apply, h]

/-- Filtering out an identifier leaves nothing with that identifier to
find. -/
lemma decorationSetFind_filter_not_self (i : String) (set : List Decoration) :
    decorationSetFind (fun d => d.id = i) (set.filter fun d => ¬ d.id = i) = [] := by
  unfold decorationSetFind
  rw [List.filter_filter]
  refine List.filter_eq_nil_iff.mpr ?_
  intro d _
  simp

/-- C1: the plugin's `apply` first remaps every existing placeholder
decoration position through the transaction's position mapping, and only
then reads the metadata action and applies at most one add or remove
intent (none when no action is attached): `apply` factors as the remap
phase followed by the action phase, so an attached add or remove is
interpreted against the already-remapped positions. -/
theorem apply_factors_as_remap_then_action (tr : Transaction α)
    (data : UploadPlaceholderPluginData α) :
    apply tr data = actionPhase tr (remapPhase tr data) := by
  cases tr with
  | mk mapping action =>
    cases action with
    | none => rfl
    | some a => cases a <;> rfl

/-- C5: `hasUploadingFile` answers `true` exactly when some identifier is
currently registered (that is, some identifier's payload lookup succeeds
on the state), and it answers `false` on the freshly initialized plugin
state. -/
theorem hasUploadingFile_iff_some_registered (α : Type) :
    (∀ state : EditorState α,
        hasUploadingFile state = true ↔ ∃ id, (findUploadPlaceholderPayload state id).isSome) ∧
    hasUploadingFile (EditorState.mk (some (init α))) = false := by
  constructor
  · intro state
    cases state with
    | mk ps =>
      cases ps with
      | none => simp [hasUploadingFile, findUploadPlaceholderPayload]
      | some data =>
        cases data with
        | mk set payloads =>
          cases payloads with
          | nil => simp [hasUploadingFile, findUploadPlaceholderPayload, mapGet]
          | cons kv rest =>
            simp only [hasUploadingFile, findUploadPlaceholderPayload, mapGet]
            constructor
            · intro _
              refine ⟨kv.1, ?_⟩
              simp [List.find?]
            · intro _
              simp
  · rfl

/-- C6: adding identifier `A` at position 5 and then applying a
transaction that inserts three characters at position 2 (before 5) yields
`findUploadPlaceholderPos == 8`: the stored position shifts by the
inserted length through the transaction's position mapping. -/
theorem findPos_after_insert_before :
    findUploadPlaceholderPos
      (EditorState.mk (some (apply { mapping := insertThreeAtTwo, action := none }
        (apply { mapping := identityMapping,
                 action := some (.add "A" 5 (0 : Nat)) } (init Nat))))) "A" = some 8 := by
  decide

/-- C4: adding identifier `A` and then removing `A` in the next
transaction yields a state where both the position lookup and the payload
lookup for `A` answer "absent": the remove deletes the placeholder
decoration and its payload entry. -/
theorem add_then_remove_clears_both (s : UploadPlaceholderPluginData α)
    (tr₁ tr₂ : Transaction α) (A : String) (pos : Nat) (payload : α)
    (h₁ : tr₁.action = some (.add A pos payload))
    (h₂ : tr₂.action = some (.remove A)) :
    findUploadPlaceholderPos (EditorState.mk (some (apply tr₂ (apply tr₁ s)))) A = none ∧
    findUploadPlaceholderPayload (EditorState.mk (some (apply tr₂ (apply tr₁ s)))) A =
      none := by
  constructor
  · simp only [findUploadPlaceholderPos]
    rw [apply_remove_set tr₂ _ A h₂, decorationSetFind_filter_not_self]
    rfl
  · simp only [findUploadPlaceholderPayload]
    rw [apply_remove_payloads tr₂ _ A h₂, mapGet_mapDelete, if_pos rfl]

/-- Witness for C4 at a concrete input: add `"A"` at position 5 with
payload 0, then remove `"A"`. -/
theorem add_then_remove_clears_both_witness :
    findUploadPlaceholderPos
        (EditorState.mk (some (apply { mapping := identityMapping, action := some (.remove "A") }
          (apply { mapping := identityMapping, action := some (.add "A" 5 (0 : Nat)) }
            (init Nat))))) "A" = none ∧
    findUploadPlaceholderPayload
        (EditorState.mk (some (apply { mapping := identityMapping, action := some (.remove "A") }
          (apply { mapping := identityMapping, action := some (.add "A" 5 (0 : Nat)) }
            (init Nat))))) "A" = none :=
  add_then_remove_clears_both (init Nat) _ _ "A" 5 0 rfl rfl

/-- C7: for every editor state and identifier with no registered
placeholder (no decoration carrying the identifier and no payload entry
for it, in particular when the plugin state is missing altogether), both
query functions return the explicit absent signal rather than failing. -/
theorem lookups_absent_id_return_none (st : EditorState α) (id : String)
    (h : ∀ data, st.pluginState = some data →
        decorationSetFind (fun d => d.id = id) data.set = [] ∧
          mapGet id data.payloads = none) :
    findUploadPlaceholderPos st id = none ∧ findUploadPlaceholderPayload st id = none := by
  cases st with
  | mk ps =>
    cases ps with
    | none => exact ⟨rfl, rfl⟩
    | some data =>
      obtain ⟨h1, h2⟩ := h data rfl
      constructor
      · simp only [findUploadPlaceholderPos, h1]
        rfl
      · simp only [findUploadPlaceholderPayload, h2]

/-- Witness for C7 at a concrete input: the freshly initialized state and
an identifier that was never added. -/
theorem lookups_absent_id_return_none_witness :
    findUploadPlaceholderPos (EditorState.mk (some (init Nat))) "x" = none ∧
    findUploadPlaceholderPayload (EditorState.mk (some (init Nat))) "x" = none :=
  lookups_absent_id_return_none (EditorState.mk (some (init Nat))) "x"
    (fun data hd => by
      injection hd with h
      subst h
      exact ⟨rfl, rfl⟩)

/-- C8: a transaction carrying a remove action for an identifier that is
not registered produces exactly the state the same transaction would
produce with no action attached: the remove is a no-op. -/
theorem remove_unknown_id_noop (m : Mapping) (s : UploadPlaceholderPluginData α)
    (id : String)
    (h₁ : decorationSetFind (fun d => d.id = id) s.set = [])
    (h₂ : mapGet id s.payloads = none) :
    apply { mapping := m, action := some (.remove id) } s =
      apply { mapping := m, action := none } s := by
  rw [apply_none { mapping := m, action := none } s rfl]
  have hids : ∀ d ∈ s.set, ¬ d.id = id := by
    intro d hd
    have := List.filter_eq_nil_iff.mp h₁ d hd
    simpa using this
  have hset : ((decorationSetMap m s.set).filter fun d => ¬ d.id = id) =
      decorationSetMap m s.set := by
    refine List.filter_eq_self.mpr ?_
    intro d hd
    unfold decorationSetMap at hd
    obtain ⟨a, ha, hfa⟩ := List.mem_filterMap.mp hd
    obtain ⟨q, _, hga⟩ := Option.map_eq_some'.mp hfa
    have hna := hids a ha
    rw [← hga]
    simpa using hna
  have hpay : mapDelete id s.payloads = s.payloads := by
    unfold mapDelete
    refine List.filter_eq_self.mpr ?_
    intro kv hkv
    have hfind : (s.payloads.find? fun kv => kv.1 = id) = none := by
      have h := h₂
      unfold mapGet at h
      exact Option.map_eq_none'.mp h
    have := List.find?_eq_none.mp hfind kv hkv
    simpa using this
  calc apply { mapping := m, action := some (.remove id) } s
      = { set := (decorationSetMap m s.set).filter fun d => ¬ d.id = id,
          payloads := mapDelete id s.payloads } := by
        rw [← apply_remove_set { mapping := m, action := some (.remove id) } s id rfl,
          ← apply_remove_payloads { mapping := m, action := some (.remove id) } s id rfl]
    _ = { set := decorationSetMap m s.set, payloads := s.payloads } := by
        rw [hset, hpay]

/-- Witness for C8 at a concrete input: removing `"x"` from the freshly
initialized state equals applying an actionless transaction. -/
theorem remove_unknown_id_noop_witness :
    apply { mapping := identityMapping, action := some (.remove "x") } (init Nat) =
      apply { mapping := identityMapping, action := none } (init Nat) :=
  remove_unknown_id_noop identityMapping (init Nat) "x" rfl rfl

/-- One `apply` step preserves the set/payload sync when the
transaction's mapping deletes no position. -/
lemma sync_step (tr : Transaction α) (s : UploadPlaceholderPluginData α)
    (hm : TotalMapping tr.mapping)
    (hsync : ∀ i, s.set.any (fun d => d.id = i) = (mapGet i s.payloads).isSome) :
    ∀ i, (apply tr s).set.any (fun d => d.id = i) =
      (mapGet i (apply tr s).payloads).isSome := by
  intro i
  cases htr : tr.action with
  | none =>
    rw [apply_none tr s htr]
    exact (any_decorationSetMap tr.mapping hm s.set i).trans (hsync i)
  | some act =>
    cases act with
    | add id pos payload =>
      rw [apply_add_set tr s id pos payload htr, apply_add_payloads tr s id pos payload htr,
        any_decorationSetAdd, any_decorationSetMap tr.mapping hm, mapGet_mapSet]
      by_cases hi : i = id
      · subst hi
        simp
      · have hdec : (decide (id = i)) = false := by
          have hni : ¬ id = i := fun h => hi (Eq.symm h)
          simp [hni]
        rw [if_neg hi, hdec, Bool.false_or, hsync]
    | remove id =>
      have hset : (apply tr s).set =
          decorationSetRemove
            (decorationSetFind (fun d => d.id = id) (decorationSetMap tr.mapping s.set))
            (decorationSetMap tr.mapping s.set) := by
        simp only [apply, htr]
      rw [hset, apply_remove_payloads tr s id htr, any_decorationSetRemove_find,
        mapGet_mapDelete]
      by_cases hi : i = id
      · rw [if_pos hi, if_pos hi]
        rfl
      · rw [if_neg hi, if_neg hi, any_decorationSetMap tr.mapping hm, hsync]

/-- The set/payload sync is preserved along any sequence of transactions
whose mappings delete no position. -/
lemma sync_applyList (trs : List (Transaction α)) (s : UploadPlaceholderPluginData α)
    (hm : ∀ tr ∈ trs, TotalMapping tr.mapping)
    (hsync : ∀ i, s.set.any (fun d => d.id = i) = (mapGet i s.payloads).isSome) :
    ∀ i, (applyList trs s).set.any (fun d => d.id = i) =
      (mapGet i (applyList trs s).payloads).isSome := by
  induction trs generalizing s with
  | nil => exact hsync
  | cons tr trs ih =>
    exact ih (apply tr s) (fun t ht => hm t (List.mem_cons_of_mem tr ht))
      (sync_step tr s (hm tr (List.mem_cons_self tr trs)) hsync)

/-- C2, under the proviso the counterexample forces: for every state
reachable from the initial plugin state by transactions whose position
mappings delete no position, the decoration set and the payload map are
in sync — an identifier occurs in the decoration set exactly when its
payload lookup succeeds. -/
theorem reachable_state_sync (trs : List (Transaction α))
    (hm : ∀ tr ∈ trs, TotalMapping tr.mapping) (i : String) :
    (applyList trs (init α)).set.any (fun d => d.id = i) =
      (mapGet i (applyList trs (init α)).payloads).isSome :=
  sync_applyList trs (init α) hm (fun _ => rfl) i

/-- Witness for the amended C2 at a concrete input: one add transaction
with the identity mapping. -/
theorem reachable_state_sync_witness :
    (applyList [{ mapping := identityMapping, action := some (.add "A" 5 (0 : Nat)) }]
        (init Nat)).set.any (fun d => d.id = "A") =
      (mapGet "A"
        (applyList [{ mapping := identityMapping, action := some (.add "A" 5 (0 : Nat)) }]
          (init Nat)).payloads).isSome :=
  reachable_state_sync
    [{ mapping := identityMapping, action := some (.add "A" 5 (0 : Nat)) }]
    (by
      intro tr htr
      rw [List.mem_singleton] at htr
      subst htr
      intro q
      rfl)
    "A"

/-- Counterexample to C2 as stated: after adding `"A"` at position 5 and
then applying a transaction whose mapping deletes position 5, the state —
reachable from the initial state — still has a payload entry for `"A"`
but no decoration with identifier `"A"`: the two maps are out of sync. -/
theorem sync_counterexample :
    mapGet "A" desyncState.payloads = some 0 ∧
    desyncState.set.any (fun d => d.id = "A") = false := by
  decide

/-- The counting invariant tying a plugin state to the list of currently
registered identifiers: every registered identifier has exactly one
decoration and exactly one payload entry, every other identifier has
none of either. -/
def CountInv (s : UploadPlaceholderPluginData α) (ids : List String) : Prop :=
  ∀ i, s.set.countP (fun d => d.id = i) = (if i ∈ ids then 1 else 0) ∧
    s.payloads.countP (fun kv => kv.1 = i) = (if i ∈ ids then 1 else 0)

/-- One `apply` step preserves the counting invariant when the mapping
deletes no position and an added identifier is fresh. -/
lemma countInv_step (tr : Transaction α) (s : UploadPlaceholderPluginData α)
    (ids : List String) (hm : TotalMapping tr.mapping)
    (hfresh : match tr.action with
      | some (.add id _ _) => (ids.any fun i => i = id) = false
      | _ => True)
    (hinv : CountInv s ids) :
    CountInv (apply tr s) (stepIds tr.action ids) := by
  intro i
  cases htr : tr.action with
  | none =>
    rw [apply_none tr s htr]
    obtain ⟨hs, hp⟩ := hinv i
    exact ⟨(countP_decorationSetMap tr.mapping hm s.set i).trans hs, hp⟩
  | some act =>
    cases act with
    | add id pos payload =>
      rw [htr] at hfresh
      have hfresh' : (ids.any fun i => i = id) = false := hfresh
      obtain ⟨hs, hp⟩ := hinv i
      have hnotmem : ¬ id ∈ ids := by
        intro hmem
        have := List.any_eq_false.mp hfresh' id hmem
        simp at this
      have habs : (s.payloads.any fun kv => kv.1 = id) = false := by
        refine List.any_eq_false.mpr ?_
        intro kv hkv
        have hzero := (hinv id).2
        rw [if_neg hnotmem] at hzero
        have := List.countP_eq_zero.mp hzero kv hkv
        simpa using this
      constructor
      · rw [apply_add_set tr s id pos payload htr, countP_decorationSetAdd,
          countP_decorationSetMap tr.mapping hm, hs]
        by_cases hi : i = id
        · subst hi
          simp [stepIds, hnotmem]
        · have hni : ¬ id = i := fun h => hi (Eq.symm h)
          by_cases hin : i ∈ ids <;>
            simp [stepIds, hi, hni, hin, List.mem_append]
      · rw [apply_add_payloads tr s id pos payload htr,
          countP_mapSet_of_absent id i payload s.payloads habs, hp]
        by_cases hi : i = id
        · subst hi
          simp [stepIds, hnotmem]
        · by_cases hin : i ∈ ids <;>
            simp [stepIds, hi, hin, List.mem_append]
    | remove id =>
      obtain ⟨hs, hp⟩ := hinv i
      have hset : (apply tr s).set =
          decorationSetRemove
            (decorationSetFind (fun d => d.id = id) (decorationSetMap tr.mapping s.set))
            (decorationSetMap tr.mapping s.set) := by
        simp only [apply, htr]
      constructor
      · rw [hset, countP_decorationSetRemove_find,
          countP_decorationSetMap tr.mapping hm, hs]
        by_cases hi : i = id
        · subst hi
          simp [stepIds]
        · by_cases hin : i ∈ ids <;>
            simp [stepIds, hi, hin, List.mem_filter]
      · rw [apply_remove_payloads tr s id htr, countP_mapDelete, hp]
        by_cases hi : i = id
        · subst hi
          simp [stepIds]
        · by_cases hin : i ∈ ids <;>
            simp [stepIds, hi, hin, List.mem_filter]

/-- The counting invariant is preserved along any sequence of
transactions with total mappings and fresh adds. -/
lemma countInv_applyList (trs : List (Transaction α)) (s : UploadPlaceholderPluginData α)
    (ids : List String) (hm : ∀ tr ∈ trs, TotalMapping tr.mapping)
    (hfresh : freshAddsOk trs ids = true) (hinv : CountInv s ids) :
    CountInv (applyList trs s) (registeredIds trs ids) := by
  induction trs generalizing s ids with
  | nil => exact hinv
  | cons tr trs ih =>
    rw [freshAddsOk, Bool.and_eq_true] at hfresh
    obtain ⟨hc, hrest⟩ := hfresh
    have hc' : match tr.action with
        | some (.add id _ _) => (ids.any fun i => i = id) = false
        | _ => True := by
      cases hact : tr.action with
      | none => trivial
      | some a =>
        cases a with
        | add id pos payload =>
          rw [hact] at hc
          simpa using hc
        | remove id => trivial
    exact ih (apply tr s) (stepIds tr.action ids)
      (fun t ht => hm t (List.mem_cons_of_mem tr ht)) hrest
      (countInv_step tr s ids (hm tr (List.mem_cons_self tr trs)) hc' hinv)

/-- C3, under the provisos the counterexamples force (mappings delete no
position; every add is for an identifier not registered at the time):
after any such sequence of transactions interleaving adds, removes and
unrelated edits, every currently registered identifier has exactly one
decoration and exactly one payload entry, and every unregistered — in
particular every removed — identifier has neither. -/
theorem registered_ids_unique_pos_and_payload (trs : List (Transaction α))
    (hm : ∀ tr ∈ trs, TotalMapping tr.mapping)
    (hfresh : freshAddsOk trs [] = true) (i : String) :
    (i ∈ registeredIds trs [] →
        (decorationSetFind (fun d => d.id = i) (applyList trs (init α)).set).length = 1 ∧
        ((applyList trs (init α)).payloads.countP fun kv => kv.1 = i) = 1) ∧
    (¬ i ∈ registeredIds trs [] →
        decorationSetFind (fun d => d.id = i) (applyList trs (init α)).set = [] ∧
        mapGet i (applyList trs (init α)).payloads = none) := by
  have hinv := countInv_applyList trs (init α) [] hm hfresh
    (fun j => by constructor <;> simp [init])
  obtain ⟨h1, h2⟩ := hinv i
  constructor
  · intro hmem
    rw [if_pos hmem] at h1 h2
    refine ⟨?_, h2⟩
    unfold decorationSetFind
    rw [← List.countP_eq_length_filter]
    exact h1
  · intro hmem
    rw [if_neg hmem] at h1 h2
    constructor
    · unfold decorationSetFind
      exact List.filter_eq_nil_iff.mpr (List.countP_eq_zero.mp h1)
    · unfold mapGet
      rw [List.find?_eq_none.mpr (List.countP_eq_zero.mp h2)]
      rfl

/-- Witness for the amended C3 at a concrete input: one add transaction
with the identity mapping registers `"A"` with exactly one decoration and
one payload entry. -/
theorem registered_ids_unique_pos_and_payload_witness :
    (decorationSetFind (fun d => d.id = "A")
        (applyList [{ mapping := identityMapping, action := some (.add "A" 5 (0 : Nat)) }]
          (init Nat)).set).length = 1 ∧
    ((applyList [{ mapping := identityMapping, action := some (.add "A" 5 (0 : Nat)) }]
        (init Nat)).payloads.countP fun kv => kv.1 = "A") = 1 :=
  (registered_ids_unique_pos_and_payload
      [{ mapping := identityMapping, action := some (.add "A" 5 (0 : Nat)) }]
      (by
        intro tr htr
        rw [List.mem_singleton] at htr
        subst htr
        intro q
        rfl)
      rfl
      "A").1
    (by decide)

/-- Counterexample to C3 as stated: adding identifier `"A"` twice (never
removing it) leaves `"A"` currently registered with two decorations — two
live positions — not exactly one. -/
theorem unique_position_counterexample :
    (decorationSetFind (fun d => d.id = "A") dupAddState.set).length = 2 ∧
    mapGet "A" dupAddState.payloads = some 1 := by
  decide

/-- C9: after adding two different identifiers `A` and `B` at the same
document position, both are independently addressable — the position and
payload lookups answer for each identifier separately — and independently
removable: removing `A` leaves `B`'s position and payload registered, and
removing `B` leaves `A`'s. -/
theorem two_ids_same_pos_independent (A B : String) (p : Nat) (a b : α)
    (hAB : ¬ A = B) :
    (findUploadPlaceholderPos
        (EditorState.mk (some (apply { mapping := identityMapping, action := some (.add B p b) }
          (apply { mapping := identityMapping, action := some (.add A p a) } (init α))))) A =
        some p ∧
      findUploadPlaceholderPos
        (EditorState.mk (some (apply { mapping := identityMapping, action := some (.add B p b) }
          (apply { mapping := identityMapping, action := some (.add A p a) } (init α))))) B =
        some p ∧
      findUploadPlaceholderPayload
        (EditorState.mk (some (apply { mapping := identityMapping, action := some (.add B p b) }
          (apply { mapping := identityMapping, action := some (.add A p a) } (init α))))) A =
        some a ∧
      findUploadPlaceholderPayload
        (EditorState.mk (some (apply { mapping := identityMapping, action := some (.add B p b) }
          (apply { mapping := identityMapping, action := some (.add A p a) } (init α))))) B =
        some b) ∧
    (findUploadPlaceholderPos
        (EditorState.mk (some (apply { mapping := identityMapping, action := some (.remove A) }
          (apply { mapping := identityMapping, action := some (.add B p b) }
            (apply { mapping := identityMapping, action := some (.add A p a) }
              (init α)))))) A = none ∧
      findUploadPlaceholderPayload
        (EditorState.mk (some (apply { mapping := identityMapping, action := some (.remove A) }
          (apply { mapping := identityMapping, action := some (.add B p b) }
            (apply { mapping := identityMapping, action := some (.add A p a) }
              (init α)))))) A = none ∧
      findUploadPlaceholderPos
        (EditorState.mk (some (apply { mapping := identityMapping, action := some (.remove A) }
          (apply { mapping := identityMapping, action := some (.add B p b) }
            (apply { mapping := identityMapping, action := some (.add A p a) }
              (init α)))))) B = some p ∧
      findUploadPlaceholderPayload
        (EditorState.mk (some (apply { mapping := identityMapping, action := some (.remove A) }
          (apply { mapping := identityMapping, action := some (.add B p b) }
            (apply { mapping := identityMapping, action := some (.add A p a) }
              (init α)))))) B = some b) ∧
    (findUploadPlaceholderPos
        (EditorState.mk (some (apply { mapping := identityMapping, action := some (.remove B) }
          (apply { mapping := identityMapping, action := some (.add B p b) }
            (apply { mapping := identityMapping, action := some (.add A p a) }
              (init α)))))) B = none ∧
      findUploadPlaceholderPayload
        (EditorState.mk (some (apply { mapping := identityMapping, action := some (.remove B) }
          (apply { mapping := identityMapping, action := some (.add B p b) }
            (apply { mapping := identityMapping, action := some (.add A p a) }
              (init α)))))) B = none ∧
      findUploadPlaceholderPos
        (EditorState.mk (some (apply { mapping := identityMapping, action := some (.remove B) }
          (apply { mapping := identityMapping, action := some (.add B p b) }
            (apply { mapping := identityMapping, action := some (.add A p a) }
              (init α)))))) A = some p ∧
      findUploadPlaceholderPayload
        (EditorState.mk (some (apply { mapping := identityMapping, action := some (.remove B) }
          (apply { mapping := identityMapping, action := some (.add B p b) }
            (apply { mapping := identityMapping, action := some (.add A p a) }
              (init α)))))) A = some a) := by
  have hBA : ¬ B = A := fun h => hAB (Eq.symm h)
  have hadd : decorationSetAdd { from_ := p, id := B } [{ from_ := p, id := A }] =
      [{ from_ := p, id := A }, { from_ := p, id := B }] := by
    unfold decorationSetAdd
    rw [if_neg (Nat.lt_irrefl p)]
    rfl
  have hpay : mapSet B b [(A, a)] = [(A, a), (B, b)] := by
    unfold mapSet
    rw [if_neg (by simp [hAB])]
    rfl
  have hs2 : apply { mapping := identityMapping, action := some (.add B p b) }
      (apply { mapping := identityMapping, action := some (.add A p a) } (init α)) =
      { set := [{ from_ := p, id := A }, { from_ := p, id := B }],
        payloads := [(A, a), (B, b)] } := by
    show ({ set := decorationSetAdd { from_ := p, id := B } [{ from_ := p, id := A }],
            payloads := mapSet B b [(A, a)] } : UploadPlaceholderPluginData α) = _
    rw [hadd, hpay]
  have hs3A : apply { mapping := identityMapping, action := some (.remove A) }
      ({ set := [{ from_ := p, id := A }, { from_ := p, id := B }],
         payloads := [(A, a), (B, b)] } : UploadPlaceholderPluginData α) =
      { set := [{ from_ := p, id := B }], payloads := [(B, b)] } := by
    have h1 : (apply { mapping := identityMapping, action := some (.remove A) }
        ({ set := [{ from_ := p, id := A }, { from_ := p, id := B }],
           payloads := [(A, a), (B, b)] } : UploadPlaceholderPluginData α)).set =
        [{ from_ := p, id := B }] := by
      rw [apply_remove_set _ _ A rfl]
      simp [decorationSetMap, identityMapping, List.filterMap_cons, List.filter_cons, hBA]
    have h2 : (apply { mapping := identityMapping, action := some (.remove A) }
        ({ set := [{ from_ := p, id := A }, { from_ := p, id := B }],
           payloads := [(A, a), (B, b)] } : UploadPlaceholderPluginData α)).payloads =
        [(B, b)] := by
      rw [apply_remove_payloads _ _ A rfl]
      simp [mapDelete, List.filter_cons, hBA]
    cases happ : apply { mapping := identityMapping, action := some (.remove A) }
        ({ set := [{ from_ := p, id := A }, { from_ := p, id := B }],
           payloads := [(A, a), (B, b)] } : UploadPlaceholderPluginData α) with
    | mk s2 p2 =>
      rw [happ] at h1 h2
      have h1' : s2 = [{ from_ := p, id := B }] := h1
      have h2' : p2 = [(B, b)] := h2
      rw [h1', h2']
  have hs3B : apply { mapping := identityMapping, action := some (.remove B) }
      ({ set := [{ from_ := p, id := A }, { from_ := p, id := B }],
         payloads := [(A, a), (B, b)] } : UploadPlaceholderPluginData α) =
      { set := [{ from_ := p, id := A }], payloads := [(A, a)] } := by
    have h1 : (apply { mapping := identityMapping, action := some (.remove B) }
        ({ set := [{ from_ := p, id := A }, { from_ := p, id := B }],
           payloads := [(A, a), (B, b)] } : UploadPlaceholderPluginData α)).set =
        [{ from_ := p, id := A }] := by
      rw [apply_remove_set _ _ B rfl]
      simp [decorationSetMap, identityMapping, List.filterMap_cons, List.filter_cons, hAB]
    have h2 : (apply { mapping := identityMapping, action := some (.remove B) }
        ({ set := [{ from_ := p, id := A }, { from_ := p, id := B }],
           payloads := [(A, a), (B, b)] } : UploadPlaceholderPluginData α)).payloads =
        [(A, a)] := by
      rw [apply_remove_payloads _ _ B rfl]
      simp [mapDelete, List.filter_cons, hAB]
    cases happ : apply { mapping := identityMapping, action := some (.remove B) }
        ({ set := [{ from_ := p, id := A }, { from_ := p, id := B }],
           payloads := [(A, a), (B, b)] } : UploadPlaceholderPluginData α) with
    | mk s2 p2 =>
      rw [happ] at h1 h2
      have h1' : s2 = [{ from_ := p, id := A }] := h1
      have h2' : p2 = [(A, a)] := h2
      rw [h1', h2']
  rw [hs2, hs3A, hs3B]
  refine ⟨⟨?_, ?_, ?_, ?_⟩, ⟨?_, ?_, ?_, ?_⟩, ⟨?_, ?_, ?_, ?_⟩⟩ <;>
    simp [findUploadPlaceholderPos, findUploadPlaceholderPayload, decorationSetFind,
      mapGet, List.filter_cons, List.find?, hAB, hBA]

/-- Witness for C9 at a concrete input: identifiers `"a"` and `"b"`, both
at position 1, with payloads 0 and 1. -/
theorem two_ids_same_pos_independent_witness :
    findUploadPlaceholderPos
        (EditorState.mk (some (apply
          { mapping := identityMapping, action := some (.add "b" 1 (1 : Nat)) }
          (apply { mapping := identityMapping, action := some (.add "a" 1 (0 : Nat)) }
            (init Nat))))) "a" = some 1 ∧
    findUploadPlaceholderPos
        (EditorState.mk (some (apply
          { mapping := identityMapping, action := some (.add "b" 1 (1 : Nat)) }
          (apply { mapping := identityMapping, action := some (.add "a" 1 (0 : Nat)) }
            (init Nat))))) "b" = some 1 :=
  have h := two_ids_same_pos_independent "a" "b" 1 (0 : Nat) (1 : Nat) (by decide)
  ⟨h.1.1, h.1.2.1⟩

/-- C10: `apply` returns a state whose payload map is the very reference
it was given — the `Map` object is mutated in place, never copied — so a
payload added by a later transaction is observable through any retained
earlier state, while the decoration set is rebound to a fresh value each
transaction, so a retained earlier state keeps its old decoration set. -/
theorem apply_aliases_payloads_rebinds_set :
    (∀ (α : Type) (tr : Transaction α) (s : UploadPlaceholderPluginDataRef) (h : Heap α),
        (applyRef tr s h).1.payloadsRef = s.payloadsRef) ∧
    mapGet "B" (heapRead refStep1.2 refStep1.1.payloadsRef) = none ∧
    mapGet "B" (heapRead refStep2.2 refStep1.1.payloadsRef) = some 1 ∧
    refStep1.1.set = [{ from_ := 5, id := "A" }] ∧
    refStep2.1.set = [{ from_ := 5, id := "A" }, { from_ := 7, id := "B" }] := by
  refine ⟨?_, by decide, by decide, by decide, by decide⟩
  intro α tr s h
  cases htr : tr.action with
  | none => simp only [applyRef, htr]
  | some act => cases act <;> simp only [applyRef, htr]

end FilePlaceholder
